import Mathlib

/-!
Verification of the `skypack` request/response engine (src/skypack.rs).

The engine turns fire-and-forget UDP datagrams into correlated
request/response exchanges: `perform_request` draws a fresh 64-bit id from
an atomic counter, encodes a `RequestPacket`, registers a oneshot waiter in
a concurrent map keyed by `(req, id)`, then loops up to 3 send/wait
attempts with a 1-second per-attempt deadline; a background listener task
decodes inbound datagrams and fulfils the matching waiter, removing it
from the map.

The embedding below is a shallow functional model of that code:
machine integers are `Nat` with explicit `% 2^64` where wraparound
matters, the concurrent map is an association list whose operations
mirror `DashMap::insert` / `DashMap::remove`, and the outcomes of the
external world (socket sends, datagram arrival, channel state) are
supplied per attempt through an environment record, so one run of the
model corresponds to one serialised execution of the real code.
-/

/-- Model of `serde_json::Value`: an open, self-describing structured
payload type.  The engine treats payloads as opaque. -/
inductive JsonValue : Type
  | null : JsonValue
  | bool : Bool → JsonValue
  | num : Int → JsonValue
  | str : String → JsonValue
  | arr : List JsonValue → JsonValue
  | obj : List (String × JsonValue) → JsonValue

/-- `RequestPacket { req: u32, id: u64, data: Option<Value> }`. -/
structure RequestPacket : Type where
  req : Nat
  id : Nat
  data : Option JsonValue

/-- `ResponsePacket { req: u32, id: u64, res: i32, data: Option<Value> }`. -/
structure ResponsePacket : Type where
  req : Nat
  id : Nat
  res : Int
  data : Option JsonValue

/-- `DeviceError` from src/skypack.rs; error payloads are modelled as
message strings. -/
inductive DeviceError : Type
  | Io : String → DeviceError
  | Serialization : String → DeviceError
  | Deserialization : String → DeviceError
  | Timeout : DeviceError
  | InternalError : DeviceError
deriving DecidableEq

/-- Correlation key: the `(u32, u64)` pair `(req, id)`. -/
abbrev Key : Type := Nat × Nat

/-- A waiter is the `oneshot::Sender<ResponsePacket>` registered in the
table; only its identity matters to the correlation logic, so it is
modelled as a token. -/
abbrev Waiter : Type := Nat

/-- Encoded datagram bytes. -/
abbrev Bytes : Type := List Nat

/-- The correlation table `DashMap<(u32, u64), Sender>`, modelled as an
association list kept duplicate-free by the operations below. -/
abbrev Table : Type := List (Key × Waiter)

/-- Map lookup (`DashMap::get` semantics): the waiter stored under `k`,
if any. -/
def tableLookup (t : Table) (k : Key) : Option Waiter :=
  (t.find? (fun e => e.1 == k)).map (fun e => e.2)

/-- `DashMap::insert`: registers `w` under `k`, overwriting any existing
entry for that key. -/
def tableInsert (t : Table) (k : Key) (w : Waiter) : Table :=
  (k, w) :: t.filter (fun e => e.1 != k)

/-- `DashMap::remove`: atomically removes and returns the entry under
`k`, if present; otherwise returns `none` and leaves the map unchanged. -/
def tableRemove (t : Table) (k : Key) : Option Waiter × Table :=
  match t.find? (fun e => e.1 == k) with
  | some e => (some e.2, t.filter (fun f => f.1 != k))
  | none => (none, t)

/-- `AtomicU64::fetch_add(1)`: returns the current value and stores the
incremented value, wrapping at `2^64`. -/
def fetchAdd (c : Nat) : Nat × Nat :=
  (c, (c + 1) % 2 ^ 64)

/-- The ids handed out by `n` successive `fetch_add` calls starting from
counter value `seed` (the counter is seeded randomly in `Skypack::new`). -/
def issuedIds (seed : Nat) : Nat → List Nat
  | 0 => []
  | Nat.succ n =>
      (fetchAdd seed).1 :: issuedIds (fetchAdd seed).2 n

section TableLemmas

theorem tableLookup_filter_self (t : Table) (k : Key) :
    tableLookup (t.filter (fun f => f.1 != k)) k = none := by
  induction t with
  | nil => rfl
  | cons e rest ih =>
      by_cases h : e.1 = k
      · simpa [List.filter, h, bne] using ih
      · have hne : (e.1 != k) = true := by simp [bne, h]
        have hne2 : (e.1 == k) = false := by simp [h]
        simp only [List.filter, hne, tableLookup, List.find?, hne2]
        exact ih

theorem tableLookup_remove_self (t : Table) (k : Key) :
    tableLookup (tableRemove t k).2 k = none := by
  unfold tableRemove
  cases h : t.find? (fun e => e.1 == k) with
  | none =>
      simp only []
      unfold tableLookup
      simp [h]
  | some e =>
      simpa using tableLookup_filter_self t k

theorem tableRemove_fst (t : Table) (k : Key) :
    (tableRemove t k).1 = tableLookup t k := by
  unfold tableRemove tableLookup
  cases h : t.find? (fun e => e.1 == k) <;> simp [h]

theorem tableRemove_of_lookup_none (t : Table) (k : Key)
    (h : tableLookup t k = none) : tableRemove t k = (none, t) := by
  unfold tableLookup at h
  unfold tableRemove
  cases hf : t.find? (fun e => e.1 == k) with
  | none => simp
  | some e => simp [hf] at h

theorem tableRemove_remove (t : Table) (k : Key) :
    tableRemove (tableRemove t k).2 k = (none, (tableRemove t k).2) :=
  tableRemove_of_lookup_none _ _ (tableLookup_remove_self t k)

end TableLemmas

/-!
## Background listener (`Skypack::start_background_listener`)

One iteration of the receiver loop body, for a single `recv_from`
outcome.  Decoding (`rmp_serde::from_slice`) is a library codec and is
passed in abstractly.  The loop in the source has no `break` or `return`
on any path, which the model records in the `continues` flag.
-/

/-- Outcome of one `socket.recv_from` call: an IO error, or a datagram
together with the source address it came from. -/
inductive RecvOutcome : Type
  | recvError : String → RecvOutcome
  | datagram : String → Bytes → RecvOutcome

/-- Observable effect of one receiver-loop iteration. -/
structure ReceiverStep : Type where
  table : Table
  delivered : Option (Waiter × ResponsePacket)
  continues : Bool

/-- One iteration of the background listener loop body:
on a receive error, log and continue; on a datagram, try to decode a
`ResponsePacket`; on success, remove the waiter registered under
`(response.req, response.id)` and, if one was present, fulfil it with
the response; on decode failure, drop the datagram and continue. -/
def receiverLoopIter (decode : Bytes → Except String ResponsePacket)
    (t : Table) (input : RecvOutcome) : ReceiverStep :=
  match input with
  | RecvOutcome.recvError _e =>
      { table := t, delivered := none, continues := true }
  | RecvOutcome.datagram _src bytes =>
      match decode bytes with
      | Except.ok response =>
          let rem := tableRemove t (response.req, response.id)
          match rem.1 with
          | some sender =>
              { table := rem.2, delivered := some (sender, response),
                continues := true }
          | none =>
              { table := rem.2, delivered := none, continues := true }
      | Except.error _e =>
          { table := t, delivered := none, continues := true }

/-!
## Request engine (`Skypack::perform_request`)

The interaction with the outside world is captured by an `AttemptEnv`:
for each attempt number, the result of `socket.send_to` and the result
of `timeout(timeout_duration, &mut rx)`.  When the waiter is fulfilled,
the background listener has already removed the table entry (it removes
before sending on the oneshot channel), which the model reflects by
removing the entry in the `fulfilled` branch.
-/

/-- Result of `timeout(timeout_duration, &mut rx)` on one attempt:
`Ok(Ok(r))` (fulfilled), `Ok(Err(_))` (channel closed), or `Err(_)`
(deadline elapsed). -/
inductive WaitOutcome : Type
  | fulfilled : ResponsePacket → WaitOutcome
  | closed : WaitOutcome
  | deadline : WaitOutcome

/-- Per-attempt external outcomes for one `perform_request` run. -/
structure AttemptEnv : Type where
  sendResult : Nat → Except String Unit
  waitResult : Nat → WaitOutcome

/-- `max_retries` from src/skypack.rs line 144. -/
def max_retries : Nat := 3

/-- `timeout_duration` from src/skypack.rs line 145, in seconds. -/
def timeout_duration_secs : Nat := 1

/-- Events observable in one `perform_request` run, in order. -/
inductive TraceEv : Type
  | inserted : Key → TraceEv
  | sent : Key → Bytes → TraceEv
  | cleanup : Key → TraceEv
deriving DecidableEq

/-- Result of one modelled `perform_request` run. -/
structure PerformOut : Type where
  result : Except DeviceError ResponsePacket
  table : Table
  counter : Nat
  trace : List TraceEv

/-- The `for _attempt in 1..=max_retries` loop: send the encoded
datagram (a send failure aborts with an IO error), then wait for the
waiter or the deadline; fulfilment returns the response (the listener
has removed the table entry), a closed channel returns `InternalError`,
and a deadline falls through to the next attempt.  After the last
attempt the loop exits with `Timeout`. -/
def retryLoop (key : Key) (buf : Bytes) (env : AttemptEnv) :
    Table → Nat → Nat →
    Except DeviceError ResponsePacket × Table × List TraceEv
  | t, _attempt, 0 => (Except.error DeviceError.Timeout, t, [])
  | t, attempt, Nat.succ remaining =>
      match env.sendResult attempt with
      | Except.error e =>
          (Except.error (DeviceError.Io e), t, [TraceEv.sent key buf])
      | Except.ok _ =>
          match env.waitResult attempt with
          | WaitOutcome.fulfilled r =>
              (Except.ok r, (tableRemove t key).2, [TraceEv.sent key buf])
          | WaitOutcome.closed =>
              (Except.error DeviceError.InternalError, t,
                [TraceEv.sent key buf])
          | WaitOutcome.deadline =>
              let rest := retryLoop key buf env t (attempt + 1) remaining
              (rest.1, rest.2.1, TraceEv.sent key buf :: rest.2.2)

/-- `Skypack::perform_request`: draw an id from the atomic counter,
encode the packet (an encode failure aborts before any registration),
register the waiter under `(req, id)` before the first send, run the
retry loop, and finally run the scopeguard cleanup that removes the
table entry for `(req, id)` if still present. -/
def perform_request (c : Nat) (req : Nat) (data : Option JsonValue)
    (encode : RequestPacket → Except String Bytes)
    (env : AttemptEnv) (w : Waiter) (t : Table) : PerformOut :=
  let id := (fetchAdd c).1
  let c2 := (fetchAdd c).2
  match encode { req := req, id := id, data := data } with
  | Except.error e =>
      { result := Except.error (DeviceError.Serialization e),
        table := t, counter := c2, trace := [] }
  | Except.ok buf =>
      let key : Key := (req, id)
      let t1 := tableInsert t key w
      let r := retryLoop key buf env t1 1 max_retries
      { result := r.1, table := (tableRemove r.2.1 key).2, counter := c2,
        trace := TraceEv.inserted key :: r.2.2 ++ [TraceEv.cleanup key] }

/-- Whether a trace event is a datagram send attempt. -/
def isSendEv : TraceEv → Bool
  | TraceEv.sent _ _ => true
  | _ => false

/-- Number of datagram send attempts recorded in a trace. -/
def sendCount (tr : List TraceEv) : Nat :=
  tr.countP isSendEv

/-!
## Request handle (`RequestHandle`)

The handle wraps a `tokio::task::JoinHandle`; joining yields either the
task's own result or a scheduler-level `JoinError` (panic or
cancellation).
-/

/-- `tokio::task::JoinError`: the underlying task panicked or was
cancelled. -/
inductive JoinError : Type
  | panicked : String → JoinError
  | cancelled : JoinError

/-- `RequestHandle::wait`:
`self.inner.await.unwrap_or(Err(DeviceError::InternalError))`. -/
def RequestHandle_wait
    (joined : Except JoinError (Except DeviceError ResponsePacket)) :
    Except DeviceError ResponsePacket :=
  match joined with
  | Except.ok r => r
  | Except.error _ => Except.error DeviceError.InternalError

/-- `std::task::Poll`. -/
inductive Poll (α : Type) : Type
  | ready : α → Poll α
  | pending : Poll α

/-- The `Future` implementation for `RequestHandle`: a ready
`Err(JoinError)` from the inner handle becomes
`Ready(Err(InternalError))`. -/
def RequestHandle_poll
    (p : Poll (Except JoinError (Except DeviceError ResponsePacket))) :
    Poll (Except DeviceError ResponsePacket) :=
  match p with
  | Poll.ready (Except.ok res) => Poll.ready res
  | Poll.ready (Except.error _) =>
      Poll.ready (Except.error DeviceError.InternalError)
  | Poll.pending => Poll.pending

section EngineLemmas

theorem retryLoop_succ (key : Key) (buf : Bytes) (env : AttemptEnv)
    (t : Table) (attempt m : Nat) :
    retryLoop key buf env t attempt (m + 1) =
      match env.sendResult attempt with
      | Except.error e =>
          (Except.error (DeviceError.Io e), t, [TraceEv.sent key buf])
      | Except.ok _ =>
          match env.waitResult attempt with
          | WaitOutcome.fulfilled r =>
              (Except.ok r, (tableRemove t key).2, [TraceEv.sent key buf])
          | WaitOutcome.closed =>
              (Except.error DeviceError.InternalError, t,
                [TraceEv.sent key buf])
          | WaitOutcome.deadline =>
              ((retryLoop key buf env t (attempt + 1) m).1,
                (retryLoop key buf env t (attempt + 1) m).2.1,
                TraceEv.sent key buf ::
                  (retryLoop key buf env t (attempt + 1) m).2.2) := rfl

theorem retryLoop_all_deadline (key : Key) (buf : Bytes) (env : AttemptEnv)
    (hsend : ∀ a, env.sendResult a = Except.ok ())
    (hwait : ∀ a, env.waitResult a = WaitOutcome.deadline) :
    ∀ remaining attempt t, retryLoop key buf env t attempt remaining =
      (Except.error DeviceError.Timeout, t,
        List.replicate remaining (TraceEv.sent key buf)) := by
  intro remaining
  induction remaining with
  | zero => intro attempt t; rfl
  | succ m ih =>
      intro attempt t
      simp [retryLoop, hsend attempt, hwait attempt, ih (attempt + 1) t,
        List.replicate_succ]

theorem retryLoop_trace_shape (key : Key) (buf : Bytes) (env : AttemptEnv) :
    ∀ remaining attempt t, 1 ≤ remaining →
      ∃ n, 1 ≤ n ∧ n ≤ remaining ∧
        (retryLoop key buf env t attempt remaining).2.2 =
          List.replicate n (TraceEv.sent key buf) := by
  intro remaining
  induction remaining with
  | zero => intro attempt t h; exact absurd h (by omega)
  | succ m ih =>
      intro attempt t _
      cases hs : env.sendResult attempt with
      | error e =>
          exact ⟨1, by omega, by omega, by simp [retryLoop, hs]⟩
      | ok u =>
          cases hw : env.waitResult attempt with
          | fulfilled r =>
              exact ⟨1, by omega, by omega, by simp [retryLoop, hs, hw]⟩
          | closed =>
              exact ⟨1, by omega, by omega, by simp [retryLoop, hs, hw]⟩
          | deadline =>
              cases m with
              | zero =>
                  exact ⟨1, by omega, by omega,
                    by simp [retryLoop, hs, hw]⟩
              | succ m2 =>
                  obtain ⟨n, h1, h2, h3⟩ := ih (attempt + 1) t (by omega)
                  refine ⟨n + 1, by omega, by omega, ?_⟩
                  rw [retryLoop_succ]
                  simp [hs, hw, h3, List.replicate_succ]

theorem sendCount_replicate (key : Key) (buf : Bytes) (n : Nat) :
    sendCount (List.replicate n (TraceEv.sent key buf)) = n := by
  induction n with
  | zero => rfl
  | succ m ih =>
      rw [List.replicate_succ]
      unfold sendCount at *
      rw [List.countP_cons]
      simp [isSendEv, ih]

theorem sendCount_trace (key k2 : Key) (buf : Bytes) (n : Nat) :
    sendCount (TraceEv.inserted key ::
      (List.replicate n (TraceEv.sent key buf) ++ [TraceEv.cleanup k2])) = n := by
  unfold sendCount
  rw [List.countP_cons, List.countP_append]
  have := sendCount_replicate key buf n
  unfold sendCount at this
  simp [isSendEv, this, List.countP_cons]

theorem issuedIds_get (n : Nat) :
    ∀ seed i, seed < 2 ^ 64 → i < n →
      (issuedIds seed n).get? i = some ((seed + i) % 2 ^ 64) := by
  induction n with
  | zero => intro seed i _ h; exact absurd h (by omega)
  | succ m ih =>
      intro seed i hseed hi
      cases i with
      | zero =>
          have h0 : (seed + 0) % 2 ^ 64 = seed := by
            rw [Nat.add_zero]
            exact Nat.mod_eq_of_lt hseed
          rw [h0]
          rfl
      | succ i2 =>
          have hlt : (seed + 1) % 2 ^ 64 < 2 ^ 64 :=
            Nat.mod_lt _ (by norm_num)
          have := ih ((seed + 1) % 2 ^ 64) i2 hlt (by omega)
          simp only [issuedIds, fetchAdd, List.get?] at *
          rw [this, Nat.mod_add_mod]
          congr 2
          omega

theorem issuedIds_distinct (seed n i j : Nat)
    (hseed : seed < 2 ^ 64) (hn : n ≤ 2 ^ 64)
    (hi : i < n) (hj : j < n) (hne : i ≠ j) :
    (issuedIds seed n).get? i ≠ (issuedIds seed n).get? j := by
  rw [issuedIds_get n seed i hseed hi, issuedIds_get n seed j hseed hj]
  intro h
  have h2 : (seed + i) % 2 ^ 64 = (seed + j) % 2 ^ 64 :=
    Option.some.inj h
  have hmod : i % 2 ^ 64 = j % 2 ^ 64 :=
    Nat.ModEq.add_left_cancel' seed h2
  rw [Nat.mod_eq_of_lt (by omega), Nat.mod_eq_of_lt (by omega)] at hmod
  exact hne hmod

end EngineLemmas

/-!
## Concrete instances used to exercise the theorems
-/

/-- A codec that encodes every packet to the empty byte string. -/
def encodeNil : RequestPacket → Except String Bytes :=
  fun _ => Except.ok []

/-- An environment in which every send succeeds and every wait expires. -/
def envAllDeadline : AttemptEnv :=
  { sendResult := fun _ => Except.ok ()
    waitResult := fun _ => WaitOutcome.deadline }

/-- An environment in which every send fails. -/
def envSendFail : AttemptEnv :=
  { sendResult := fun _ => Except.error "io"
    waitResult := fun _ => WaitOutcome.deadline }

/-- An environment in which every wait reports a closed channel. -/
def envClosed : AttemptEnv :=
  { sendResult := fun _ => Except.ok ()
    waitResult := fun _ => WaitOutcome.closed }

/-- A sample inbound response. -/
def sampleResponse : ResponsePacket :=
  { req := 9, id := 7, res := 0, data := none }

/-- A decoder that decodes every datagram to `sampleResponse`. -/
def decodeConst (r : ResponsePacket) : Bytes → Except String ResponsePacket :=
  fun _ => Except.ok r

/-- A decoder that rejects every datagram. -/
def decodeFailing : Bytes → Except String ResponsePacket :=
  fun _ => Except.error "decode"

/-!
## Claims
-/

/-- C1: on every exit path of `perform_request` — normal return, IO error
on send, encode error, `Timeout` after exhausted retries, `InternalError`
— the correlation-table entry for the call's `(req, id)` key is absent
when the operation completes (given that the key was fresh at entry, as
the unique id generator guarantees), and the engine-side removal is
idempotent with respect to the receiver having already removed the
entry. -/
theorem C1_cleanup_on_every_exit_path (c req : Nat) (data : Option JsonValue)
    (encode : RequestPacket → Except String Bytes) (env : AttemptEnv)
    (w : Waiter) (t : Table)
    (hfresh : tableLookup t (req, c) = none) :
    tableLookup (perform_request c req data encode env w t).table (req, c) =
      none ∧
    (∀ t2, tableLookup t2 (req, c) = none →
      tableRemove t2 (req, c) = (none, t2)) := by
  constructor
  · rcases henc : encode { req := req, id := c, data := data } with e | buf
    · simpa [perform_request, fetchAdd, henc] using hfresh
    · simp [perform_request, fetchAdd, henc, tableLookup_remove_self]
  · exact fun t2 h => tableRemove_of_lookup_none t2 (req, c) h

theorem C1_cleanup_on_every_exit_path_witness :
    tableLookup
      (perform_request 0 9 none encodeNil envAllDeadline 5 []).table (9, 0) =
      none ∧
    tableRemove ([] : Table) (9, 0) = (none, ([] : Table)) := by
  have h := C1_cleanup_on_every_exit_path 0 9 none encodeNil envAllDeadline
    5 [] rfl
  exact ⟨h.1, h.2 [] rfl⟩

/-- C2: when every send succeeds and every per-attempt wait expires
without the waiter being fulfilled, `perform_request` makes exactly 3
send attempts (the retry bound is the constant 3, the per-attempt
deadline the constant 1 second) and returns exactly the `Timeout`
error. -/
theorem C2_timeout_after_exactly_three_attempts (c req : Nat)
    (data : Option JsonValue) (encode : RequestPacket → Except String Bytes)
    (env : AttemptEnv) (w : Waiter) (t : Table) (buf : Bytes)
    (henc : encode { req := req, id := c, data := data } = Except.ok buf)
    (hsend : ∀ a, env.sendResult a = Except.ok ())
    (hwait : ∀ a, env.waitResult a = WaitOutcome.deadline) :
    (perform_request c req data encode env w t).result =
      Except.error DeviceError.Timeout ∧
    sendCount (perform_request c req data encode env w t).trace = 3 ∧
    max_retries = 3 ∧ timeout_duration_secs = 1 := by
  have hloop := retryLoop_all_deadline (req, c) buf env hsend hwait
    3 1 (tableInsert t (req, c) w)
  refine ⟨?_, ?_, rfl, rfl⟩
  · simp [perform_request, fetchAdd, henc, max_retries, hloop]
  · have heq : (perform_request c req data encode env w t).trace =
        TraceEv.inserted (req, c) ::
          (List.replicate 3 (TraceEv.sent (req, c) buf) ++
            [TraceEv.cleanup (req, c)]) := by
      simp [perform_request, fetchAdd, henc, max_retries, hloop,
        List.replicate_succ]
    rw [heq, sendCount_trace]

theorem C2_timeout_after_exactly_three_attempts_witness :
    (perform_request 0 9 none encodeNil envAllDeadline 5 []).result =
      Except.error DeviceError.Timeout ∧
    sendCount (perform_request 0 9 none encodeNil envAllDeadline 5 []).trace
      = 3 ∧
    max_retries = 3 ∧ timeout_duration_secs = 1 :=
  C2_timeout_after_exactly_three_attempts 0 9 none encodeNil envAllDeadline
    5 [] [] rfl (fun _ => rfl) (fun _ => rfl)

/-- C3: the shared `fetch_add` counter hands out pairwise-distinct
correlation ids to concurrently-issued requests (ignoring 64-bit
wraparound, i.e. for up to `2^64` issuances), and the receiver fulfils a
waiter with a response only if that waiter was registered under exactly
the response's `(req, id)` key — so no caller can receive another
caller's response. -/
theorem C3_distinct_ids_no_crosstalk :
    (∀ seed n i j, seed < 2 ^ 64 → n ≤ 2 ^ 64 → i < n → j < n → i ≠ j →
      (issuedIds seed n).get? i ≠ (issuedIds seed n).get? j) ∧
    (∀ decode t src bytes w2 r,
      (receiverLoopIter decode t (RecvOutcome.datagram src bytes)).delivered
        = some (w2, r) →
      tableLookup t (r.req, r.id) = some w2) := by
  constructor
  · exact fun seed n i j h1 h2 h3 h4 h5 =>
      issuedIds_distinct seed n i j h1 h2 h3 h4 h5
  · intro decode t src bytes w2 r h
    simp only [receiverLoopIter] at h
    rcases hdec : decode bytes with e | resp
    · rw [hdec] at h; simp at h
    · rw [hdec] at h
      rcases hrem : (tableRemove t (resp.req, resp.id)).1 with _ | sender
      · simp [hrem] at h
      · simp only [hrem, Option.some.injEq, Prod.mk.injEq] at h
        obtain ⟨hw, hr⟩ := h
        subst hw hr
        rw [← tableRemove_fst]
        exact hrem

theorem C3_distinct_ids_no_crosstalk_witness :
    (issuedIds 5 2).get? 0 ≠ (issuedIds 5 2).get? 1 ∧
    tableLookup [((9, 7), 3)] (9, 7) = some 3 := by
  constructor
  · exact C3_distinct_ids_no_crosstalk.1 5 2 0 1 (by norm_num) (by norm_num)
      (by norm_num) (by norm_num) (by norm_num)
  · exact C3_distinct_ids_no_crosstalk.2 (decodeConst sampleResponse)
      [((9, 7), 3)] "addr" [] 3 sampleResponse rfl

/-- C4: when encoding succeeds, the trace of `perform_request` is exactly
one waiter registration under `(req, id)`, followed by between 1 and 3
send attempts that all carry that same key and the same encoded packet,
followed by the single cleanup of that key — the waiter is inserted
strictly before the first send, and no retry creates a new id, packet,
or registration. -/
theorem C4_insert_before_send_same_registration (c req : Nat)
    (data : Option JsonValue) (encode : RequestPacket → Except String Bytes)
    (env : AttemptEnv) (w : Waiter) (t : Table) (buf : Bytes)
    (henc : encode { req := req, id := c, data := data } = Except.ok buf) :
    ∃ n, 1 ≤ n ∧ n ≤ max_retries ∧
      (perform_request c req data encode env w t).trace =
        TraceEv.inserted (req, c) ::
          (List.replicate n (TraceEv.sent (req, c) buf) ++
            [TraceEv.cleanup (req, c)]) := by
  obtain ⟨n, h1, h2, h3⟩ := retryLoop_trace_shape (req, c) buf env
    max_retries 1 (tableInsert t (req, c) w) (by norm_num [max_retries])
  exact ⟨n, h1, h2, by simp [perform_request, fetchAdd, henc, h3]⟩

theorem C4_insert_before_send_same_registration_witness :
    ∃ n, 1 ≤ n ∧ n ≤ max_retries ∧
      (perform_request 0 9 none encodeNil envAllDeadline 5 []).trace =
        TraceEv.inserted (9, 0) ::
          (List.replicate n (TraceEv.sent (9, 0) []) ++
            [TraceEv.cleanup (9, 0)]) :=
  C4_insert_before_send_same_registration 0 9 none encodeNil envAllDeadline
    5 [] [] rfl

/-- C5: if the datagram send fails on attempt `k` (all earlier attempts
having expired normally), `perform_request` returns the IO error at once:
exactly `k` send attempts happen, no retry follows the failure, and the
failure is never converted into `Timeout`. -/
theorem C5_send_failure_aborts_immediately (c req : Nat)
    (data : Option JsonValue) (encode : RequestPacket → Except String Bytes)
    (env : AttemptEnv) (w : Waiter) (t : Table) (buf : Bytes) (k : Nat)
    (e : String)
    (henc : encode { req := req, id := c, data := data } = Except.ok buf)
    (hk1 : 1 ≤ k) (hk3 : k ≤ max_retries)
    (hfail : env.sendResult k = Except.error e)
    (hprev : ∀ j, 1 ≤ j → j < k →
      env.sendResult j = Except.ok () ∧
        env.waitResult j = WaitOutcome.deadline) :
    (perform_request c req data encode env w t).result =
      Except.error (DeviceError.Io e) ∧
    sendCount (perform_request c req data encode env w t).trace = k := by
  have hk : k = 1 ∨ k = 2 ∨ k = 3 := by
    unfold max_retries at hk3; omega
  rcases hk with h | h | h <;> subst h
  · constructor <;>
      simp [perform_request, max_retries, fetchAdd, henc, retryLoop, hfail,
        sendCount, List.countP_cons, isSendEv]
  · have p1 := hprev 1 (by omega) (by omega)
    constructor <;>
      simp [perform_request, max_retries, fetchAdd, henc, retryLoop, hfail,
        p1.1, p1.2, sendCount, List.countP_cons, isSendEv]
  · have p1 := hprev 1 (by omega) (by omega)
    have p2 := hprev 2 (by omega) (by omega)
    constructor <;>
      simp [perform_request, max_retries, fetchAdd, henc, retryLoop, hfail,
        p1.1, p1.2, p2.1, p2.2, sendCount, List.countP_cons, isSendEv]

theorem C5_send_failure_aborts_immediately_witness :
    (perform_request 0 9 none encodeNil envSendFail 5 []).result =
      Except.error (DeviceError.Io "io") ∧
    sendCount (perform_request 0 9 none encodeNil envSendFail 5 []).trace
      = 1 :=
  C5_send_failure_aborts_immediately 0 9 none encodeNil envSendFail 5 []
    [] 1 "io" rfl (by omega) (by norm_num [max_retries]) rfl
    (fun j h1 h2 => absurd h1 (by omega))

/-- C6: removal from the correlation table is idempotent — `remove`
returns the waiter when the key is present, removing it; a second
removal of the same key returns `none` and changes nothing; so of two
sequentialised removals of one key at most one obtains the waiter. -/
theorem C6_removal_idempotent (t : Table) (k : Key) (w : Waiter) :
    (tableLookup t k = some w → (tableRemove t k).1 = some w) ∧
    tableLookup (tableRemove t k).2 k = none ∧
    tableRemove (tableRemove t k).2 k = (none, (tableRemove t k).2) := by
  refine ⟨fun h => ?_, tableLookup_remove_self t k, tableRemove_remove t k⟩
  rw [tableRemove_fst]
  exact h

theorem C6_removal_idempotent_witness :
    (tableRemove [((9, 7), 3)] (9, 7)).1 = some 3 ∧
    tableLookup (tableRemove [((9, 7), 3)] (9, 7)).2 (9, 7) = none ∧
    tableRemove (tableRemove [((9, 7), 3)] (9, 7)).2 (9, 7) =
      (none, (tableRemove [((9, 7), 3)] (9, 7)).2) := by
  have h := C6_removal_idempotent [((9, 7), 3)] (9, 7) 3
  exact ⟨h.1 rfl, h.2.1, h.2.2⟩

/-- C7: the receiver loop survives every bad input — a socket receive
error and an undecodable datagram both leave the table unchanged, fulfil
no waiter, surface no error, and the loop continues. -/
theorem C7_receiver_survives_bad_input
    (decode : Bytes → Except String ResponsePacket) (t : Table)
    (e de : String) (src : String) (bytes : Bytes)
    (hdec : decode bytes = Except.error de) :
    receiverLoopIter decode t (RecvOutcome.recvError e) =
      { table := t, delivered := none, continues := true } ∧
    receiverLoopIter decode t (RecvOutcome.datagram src bytes) =
      { table := t, delivered := none, continues := true } := by
  exact ⟨rfl, by simp [receiverLoopIter, hdec]⟩

theorem C7_receiver_survives_bad_input_witness :
    receiverLoopIter decodeFailing [] (RecvOutcome.recvError "recv") =
      { table := [], delivered := none, continues := true } ∧
    receiverLoopIter decodeFailing [] (RecvOutcome.datagram "addr" [0]) =
      { table := [], delivered := none, continues := true } :=
  C7_receiver_survives_bad_input decodeFailing [] "recv" "decode" "addr"
    [0] rfl

/-- C8: a well-formed response whose `(req, id)` key has no table entry
(duplicate or stale) is dropped with no observable effect: the table is
unchanged, no waiter is fulfilled, no error surfaces, the loop
continues. -/
theorem C8_unmatched_response_dropped
    (decode : Bytes → Except String ResponsePacket) (t : Table)
    (src : String) (bytes : Bytes) (r : ResponsePacket)
    (hdec : decode bytes = Except.ok r)
    (hmiss : tableLookup t (r.req, r.id) = none) :
    receiverLoopIter decode t (RecvOutcome.datagram src bytes) =
      { table := t, delivered := none, continues := true } := by
  have hrem := tableRemove_of_lookup_none t (r.req, r.id) hmiss
  simp [receiverLoopIter, hdec, hrem]

theorem C8_unmatched_response_dropped_witness :
    receiverLoopIter (decodeConst sampleResponse) []
      (RecvOutcome.datagram "addr" []) =
      { table := [], delivered := none, continues := true } :=
  C8_unmatched_response_dropped (decodeConst sampleResponse) [] "addr" []
    sampleResponse rfl rfl

/-- C9: a broken internal channel surfaces as `InternalError`: if the
waiter's channel reports closed on attempt `k` (earlier attempts having
expired), `perform_request` returns `InternalError`; and joining a
failed or cancelled background task through `RequestHandle::wait` or by
awaiting the handle yields `InternalError`, not the scheduler's own
`JoinError`. -/
theorem C9_broken_channel_internal_error (c req : Nat)
    (data : Option JsonValue) (encode : RequestPacket → Except String Bytes)
    (env : AttemptEnv) (w : Waiter) (t : Table) (buf : Bytes) (k : Nat)
    (henc : encode { req := req, id := c, data := data } = Except.ok buf)
    (hk1 : 1 ≤ k) (hk3 : k ≤ max_retries)
    (hsend : ∀ j, 1 ≤ j → j ≤ k → env.sendResult j = Except.ok ())
    (hprev : ∀ j, 1 ≤ j → j < k → env.waitResult j = WaitOutcome.deadline)
    (hclosed : env.waitResult k = WaitOutcome.closed) :
    (perform_request c req data encode env w t).result =
      Except.error DeviceError.InternalError ∧
    (∀ je, RequestHandle_wait (Except.error je) =
      Except.error DeviceError.InternalError) ∧
    (∀ je, RequestHandle_poll (Poll.ready (Except.error je)) =
      Poll.ready (Except.error DeviceError.InternalError)) := by
  refine ⟨?_, fun je => rfl, fun je => rfl⟩
  have hk : k = 1 ∨ k = 2 ∨ k = 3 := by
    unfold max_retries at hk3; omega
  rcases hk with h | h | h <;> subst h
  · have s1 := hsend 1 (by omega) (by omega)
    simp [perform_request, max_retries, fetchAdd, henc, retryLoop, s1,
      hclosed]
  · have s1 := hsend 1 (by omega) (by omega)
    have s2 := hsend 2 (by omega) (by omega)
    have p1 := hprev 1 (by omega) (by omega)
    simp [perform_request, max_retries, fetchAdd, henc, retryLoop, s1, s2,
      p1, hclosed]
  · have s1 := hsend 1 (by omega) (by omega)
    have s2 := hsend 2 (by omega) (by omega)
    have s3 := hsend 3 (by omega) (by omega)
    have p1 := hprev 1 (by omega) (by omega)
    have p2 := hprev 2 (by omega) (by omega)
    simp [perform_request, max_retries, fetchAdd, henc, retryLoop, s1, s2,
      s3, p1, p2, hclosed]

theorem C9_broken_channel_internal_error_witness :
    (perform_request 0 9 none encodeNil envClosed 5 []).result =
      Except.error DeviceError.InternalError ∧
    RequestHandle_wait (Except.error JoinError.cancelled) =
      Except.error DeviceError.InternalError ∧
    RequestHandle_poll (Poll.ready (Except.error JoinError.cancelled)) =
      Poll.ready (Except.error DeviceError.InternalError) := by
  have h := C9_broken_channel_internal_error 0 9 none encodeNil envClosed
    5 [] [] 1 rfl (by omega) (by norm_num [max_retries])
    (fun j h1 h2 => rfl) (fun j h1 h2 => absurd h1 (by omega)) rfl
  exact ⟨h.1, h.2.1 JoinError.cancelled, h.2.2 JoinError.cancelled⟩

/-- C10: the receiver ignores the datagram's source address — one loop
iteration computes the same outcome for any two source addresses, and a
response matching a registered waiter is delivered to that waiter
whatever address it came from. -/
theorem C10_source_address_ignored
    (decode : Bytes → Except String ResponsePacket) (t : Table)
    (bytes : Bytes) :
    (∀ src src2, receiverLoopIter decode t (RecvOutcome.datagram src bytes)
      = receiverLoopIter decode t (RecvOutcome.datagram src2 bytes)) ∧
    (∀ src r w2, decode bytes = Except.ok r →
      tableLookup t (r.req, r.id) = some w2 →
      (receiverLoopIter decode t (RecvOutcome.datagram src bytes)).delivered
        = some (w2, r)) := by
  constructor
  · intro src src2; rfl
  · intro src r w2 hdec hlook
    have hrem : (tableRemove t (r.req, r.id)).1 = some w2 := by
      rw [tableRemove_fst]; exact hlook
    simp [receiverLoopIter, hdec, hrem]

theorem C10_source_address_ignored_witness :
    receiverLoopIter (decodeConst sampleResponse) [((9, 7), 3)]
      (RecvOutcome.datagram "10.0.0.1:1" []) =
      receiverLoopIter (decodeConst sampleResponse) [((9, 7), 3)]
        (RecvOutcome.datagram "10.0.0.2:2" []) ∧
    (receiverLoopIter (decodeConst sampleResponse) [((9, 7), 3)]
      (RecvOutcome.datagram "10.0.0.1:1" [])).delivered =
      some (3, sampleResponse) := by
  have h := C10_source_address_ignored (decodeConst sampleResponse)
    [((9, 7), 3)] []
  exact ⟨h.1 "10.0.0.1:1" "10.0.0.2:2", h.2 "10.0.0.1:1" sampleResponse 3
    rfl rfl⟩
